import Mathlib

/-!
Verification of the tcpchat wire protocol and session/broadcast engine.

The development shallowly embeds the Go sources:
* the frame codec `common.ReadUntil` and the frame writers
  (`client.writeJSONTo`, `server.writeOKResponse`, `server.writeErrorResponse`),
* the conversation registry and its mutators (`server.handleCreateConversation`,
  `server.handleSubscribe`),
* the per-connection session loop body of `server.handleConnection`,
* the broadcast path (`server.messagesChannel` / `server.subscribeToMessages`)
  as a small labelled transition system,
* the client receiver loop body (`client.handleIncoming`), and
* the handshake parser `server.ParseClientAboutMe`.

Bytes are modelled as natural numbers, byte streams as lists of bytes
(the list is the data available before end-of-stream), Go maps written
only at absent keys as association lists, and `uuid.New()` as a
caller-supplied fresh token. JSON marshalling of payloads is the opaque
serialize/deserialize boundary of the protocol: frame writers take the
already-marshalled bytes, and handlers take the already-unmarshalled
payload (an `Except` value, since unmarshalling can fail).
-/

namespace TcpChat

/-- A byte. The claims never depend on the 256 bound, so plain `Nat` is used. -/
abbrev Byte := Nat

/-- The carriage-return byte. -/
def CR : Byte := 13

/-- The line-feed byte. -/
def LF : Byte := 10

/-- The frame terminator `common.EOFBytes = []byte("\x5cr\x5cn")`. -/
def EOFBytes : List Byte := [CR, LF]

/-- The `bufio.Reader.ReadBytes(delim)` primitive used by `ReadUntil`, over a
byte stream modelled as the list of bytes available before end-of-stream:
it returns the chunk up to and including the first occurrence of `delim`
together with the rest of the stream, or `none` when the stream ends before
`delim` occurs (the `err != nil` branch of the caller, which discards the
partial chunk). Chunking of the underlying transport is invisible at this
level: `bufio` re-reads until the delimiter byte arrives. -/
def readBytes (delim : Byte) : List Byte → Option (List Byte × List Byte)
  | [] => none
  | c :: rest =>
    if c = delim then some ([c], rest)
    else (readBytes delim rest).map fun br => (c :: br.1, br.2)

theorem readBytes_append {delim : Byte} :
    ∀ {s b rest : List Byte}, readBytes delim s = some (b, rest) →
      s = b ++ rest ∧ b ≠ [] := by
  intro s
  induction s with
  | nil => intro b rest h; simp [readBytes] at h
  | cons c t ih =>
    intro b rest h
    rw [readBytes] at h
    by_cases hc : c = delim
    · rw [if_pos hc] at h
      simp only [Option.some.injEq, Prod.mk.injEq] at h
      obtain ⟨h1, h2⟩ := h
      subst h1; subst h2
      exact ⟨rfl, by simp⟩
    · rw [if_neg hc] at h
      cases hm : readBytes delim t with
      | none => rw [hm, Option.map_none'] at h; cases h
      | some br =>
        rw [hm, Option.map_some'] at h
        simp only [Option.some.injEq, Prod.mk.injEq] at h
        obtain ⟨h1, h2⟩ := h
        subst h1; subst h2
        obtain ⟨ht, -⟩ := ih hm
        exact ⟨by rw [ht]; rfl, by simp⟩

theorem readBytes_isSome_of_mem {delim : Byte} :
    ∀ {s : List Byte}, delim ∈ s → (readBytes delim s).isSome := by
  intro s
  induction s with
  | nil => intro h; simp at h
  | cons c t ih =>
    intro h
    simp only [readBytes]
    by_cases hc : c = delim
    · rw [if_pos hc]; rfl
    · rw [if_neg hc]
      have ht : delim ∈ t := by
        rcases List.mem_cons.mp h with h1 | h1
        · exact absurd h1.symm hc
        · exact h1
      cases hm : readBytes delim t with
      | none =>
        have hs := ih ht
        rw [hm] at hs
        simp at hs
      | some br => simp

theorem readBytes_rest_length {delim : Byte} {s b rest : List Byte}
    (h : readBytes delim s = some (b, rest)) : rest.length < s.length := by
  obtain ⟨hs, hb⟩ := readBytes_append h
  rw [hs, List.length_append]
  have : 0 < b.length := List.length_pos.mpr hb
  omega

/-- The frame reader `common.ReadUntil` (src/unnamed/part_004, lines 102-122),
with the stateful `bufio` reader made explicit: the result pairs the
accumulated `returnBytes` with the bytes left unconsumed in the stream.
Two properties of the source are preserved faithfully:
* the accumulated bytes are returned as-is, so when the loop breaks on the
  delimiter test the returned bytes still end with the delimiter; and
* the named return `err` is shadowed by the `:=` inside the loop and is
  therefore never assigned, so the function has no error outcome — a read
  error or end-of-stream merely breaks the loop and returns the bytes
  accumulated so far (the result carries no error component at all). -/
def ReadUntil (delim : List Byte) (s : List Byte) (acc : List Byte) :
    List Byte × List Byte :=
  match h : readBytes (delim.getLastD 0) s with
  | none => (acc, s)
  | some (b, rest) =>
    let acc2 := acc ++ b
    if delim.length < acc2.length ∧
        acc2.drop (acc2.length - delim.length) = delim then
      (acc2, rest)
    else
      ReadUntil delim rest acc2
termination_by s.length
decreasing_by exact readBytes_rest_length h

theorem ReadUntil_none {delim s acc} (h : readBytes (delim.getLastD 0) s = none) :
    ReadUntil delim s acc = (acc, s) := by
  rw [ReadUntil, h]

theorem ReadUntil_some {delim s acc b rest}
    (h : readBytes (delim.getLastD 0) s = some (b, rest)) :
    ReadUntil delim s acc =
      if delim.length < (acc ++ b).length ∧
          (acc ++ b).drop ((acc ++ b).length - delim.length) = delim then
        (acc ++ b, rest)
      else
        ReadUntil delim rest (acc ++ b) := by
  rw [ReadUntil, h]

theorem ReadUntil_nil (delim acc : List Byte) : ReadUntil delim [] acc = (acc, []) :=
  ReadUntil_none rfl

/-- Byte stream emitted by the server frame writer `writeOKResponse`
(src/server/server.go, lines 293-320) for a response whose marshalled form is
`responseBytes`: a single `conn.Write(append(responseBytes, common.EOFBytes...))`. -/
def writeOKResponseStream (responseBytes : List Byte) : List Byte :=
  responseBytes ++ EOFBytes

/-- Byte stream emitted by the server frame writer `writeErrorResponse`
(src/server/server.go, lines 275-291): `conn.Write(responseBytes)` followed by
`conn.Write(common.EOFBytes)`; the connection is then closed. -/
def writeErrorResponseStream (responseBytes : List Byte) : List Byte :=
  responseBytes ++ EOFBytes

/-- Byte stream emitted by the client frame writer `writeJSONTo`
(src/unnamed/part_000, lines 306-320) for a value whose marshalled form is `b`:
`conn.Write(append(b, common.EOFBytes...))` followed by a second
`conn.Write(common.EOFBytes)`. -/
def writeJSONToStream (b : List Byte) : List Byte :=
  (b ++ EOFBytes) ++ EOFBytes

/-- Decides whether the two-byte terminator CR LF occurs contiguously in `l`. -/
def hasCRLF : List Byte → Bool
  | a :: b :: t => (decide (a = CR) && decide (b = LF)) || hasCRLF (b :: t)
  | _ => false

theorem hasCRLF_append : ∀ (l r : List Byte), hasCRLF (l ++ CR :: LF :: r) = true := by
  intro l
  induction l with
  | nil => intro r; simp [hasCRLF, CR, LF]
  | cons a l ih =>
    intro r
    cases l with
    | nil => simp [hasCRLF, CR, LF]
    | cons b l2 =>
      have hh : hasCRLF (b :: (l2 ++ CR :: LF :: r)) = true := ih r
      calc hasCRLF (a :: b :: l2 ++ CR :: LF :: r)
          = (decide (a = CR) && decide (b = LF) || hasCRLF (b :: (l2 ++ CR :: LF :: r))) := rfl
        _ = true := by rw [hh]; simp

/-- Main lemma for the frame reader: on a stream holding a single frame whose
payload contains no CR LF pair, the `ReadUntil` loop consumes the whole stream
and returns payload and terminator together. Stated over an arbitrary partially
filled accumulator so that it can follow the loop. -/
theorem ReadUntil_frame_aux (p : List Byte) (hp : hasCRLF p = false) :
    ∀ n s acc, s.length ≤ n → acc ++ s = p ++ EOFBytes → s ≠ [] →
      ReadUntil EOFBytes s acc = (p ++ EOFBytes, []) := by
  intro n
  induction n with
  | zero =>
    intro s acc hlen heq hne
    cases s with
    | nil => exact absurd rfl hne
    | cons a t => simp at hlen
  | succ n ih =>
    intro s acc hlen heq hne
    have hLF : LF ∈ s := by
      have ha := List.getLast?_append_of_ne_nil acc hne
      rw [heq] at ha
      have hEOFne : EOFBytes ≠ [] := by simp [EOFBytes]
      have hb := List.getLast?_append_of_ne_nil p hEOFne
      have h1 : s.getLast? = some LF := by rw [← ha, hb]; rfl
      obtain ⟨h2, h3⟩ := List.mem_getLast?_eq_getLast (l := s) (x := LF) (by rw [h1]; rfl)
      rw [h3]
      exact List.getLast_mem h2
    have hsome := readBytes_isSome_of_mem hLF
    obtain ⟨br, hrb0⟩ := Option.isSome_iff_exists.mp hsome
    obtain ⟨b, rest⟩ := br
    have hrb : readBytes (EOFBytes.getLastD 0) s = some (b, rest) := hrb0
    obtain ⟨hsplit, hbne⟩ := readBytes_append hrb0
    have hacc2 : (acc ++ b) ++ rest = p ++ EOFBytes := by
      rw [List.append_assoc, ← hsplit, heq]
    rw [ReadUntil_some hrb]
    by_cases hrest : rest = []
    · subst hrest
      have hacc2A : acc ++ b = p ++ EOFBytes := by simpa using hacc2
      by_cases hpnil : p = []
      · subst hpnil
        have hcond : ¬ (EOFBytes.length < (acc ++ b).length ∧
            (acc ++ b).drop ((acc ++ b).length - EOFBytes.length) = EOFBytes) := by
          rw [hacc2A]
          simp [EOFBytes]
        rw [if_neg hcond, ReadUntil_nil, hacc2A]
      · have hplen : 0 < p.length := List.length_pos.mpr hpnil
        have hlen2 : (acc ++ b).length = p.length + 2 := by
          rw [hacc2A]; simp [EOFBytes]
        have hlen3 : (p ++ EOFBytes).length - EOFBytes.length = p.length := by
          simp [EOFBytes]
        have hcond : EOFBytes.length < (acc ++ b).length ∧
            (acc ++ b).drop ((acc ++ b).length - EOFBytes.length) = EOFBytes := by
          constructor
          · have hEl : EOFBytes.length = 2 := rfl
            omega
          · rw [hacc2A, hlen3, List.drop_left]
        rw [if_pos hcond, hacc2A]
    · have habl : (acc ++ b).length = acc.length + b.length := by simp
      have hlenacc : acc.length + b.length + rest.length = p.length + 2 := by
        have hc := congrArg List.length hacc2
        simp [EOFBytes] at hc
        omega
      have hrpos : 0 < rest.length := List.length_pos.mpr hrest
      have hcond : ¬ (EOFBytes.length < (acc ++ b).length ∧
          (acc ++ b).drop ((acc ++ b).length - EOFBytes.length) = EOFBytes) := by
        rintro ⟨h2, hdropEq⟩
        have h2A : 2 < (acc ++ b).length := by
          have hEl : EOFBytes.length = 2 := rfl
          omega
        have hdec : acc ++ b =
            (acc ++ b).take ((acc ++ b).length - EOFBytes.length) ++ EOFBytes := by
          conv_lhs => rw [← List.take_append_drop ((acc ++ b).length - EOFBytes.length) (acc ++ b)]
          rw [hdropEq]
        have h1 := congrArg (List.take (acc ++ b).length) hacc2
        rw [List.take_left] at h1
        by_cases hcase : (acc ++ b).length ≤ p.length
        · have h0 : (acc ++ b).length - p.length = 0 := by omega
          rw [List.take_append_eq_append_take, h0] at h1
          simp only [List.take_zero, List.append_nil] at h1
          have hpdec : p = (acc ++ b) ++ p.drop (acc ++ b).length := by
            conv_lhs => rw [← List.take_append_drop ((acc ++ b).length) p]
            rw [← h1]
          have hpdec2 : p = ((acc ++ b).take ((acc ++ b).length - EOFBytes.length)
              ++ EOFBytes) ++ p.drop (acc ++ b).length := by
            rw [← hdec]
            exact hpdec
          have hp2 : hasCRLF p = true := by
            rw [hpdec2, List.append_assoc]
            have hstep : EOFBytes ++ p.drop (acc ++ b).length
                = CR :: LF :: p.drop (acc ++ b).length := rfl
            rw [hstep, hasCRLF_append]
          rw [hp2] at hp
          simp at hp
        · have hlen1 : (acc ++ b).length = p.length + 1 := by omega
          have htake : acc ++ b = p ++ [CR] := by
            rw [List.take_append_eq_append_take, hlen1] at h1
            have e1 : p.take (p.length + 1) = p := List.take_of_length_le (by omega)
            have e2 : p.length + 1 - p.length = 1 := by omega
            rw [e1, e2] at h1
            exact h1
          have hA : (acc ++ b).getLast? = some LF := by
            rw [hdec]
            have hEOFne : EOFBytes ≠ [] := by simp [EOFBytes]
            rw [List.getLast?_append_of_ne_nil _ hEOFne]
            rfl
          have hB : (acc ++ b).getLast? = some CR := by
            rw [htake, List.getLast?_concat]
          rw [hA] at hB
          simp [CR, LF] at hB
      rw [if_neg hcond]
      exact ih rest (acc ++ b) (by have := readBytes_rest_length hrb0; omega) hacc2 hrest

/-- C1, counterexample: for the one-byte payload `[88]` delivered as
`[88] ++ CR LF`, `ReadUntil` returns `[88, CR, LF]` — the terminator is
included in the returned bytes, so the claim "returns exactly the payload
bytes, with the terminator not included" is false. -/
theorem C1_counterexample :
    (ReadUntil EOFBytes ([88] ++ EOFBytes) []).1 ≠ [88] ∧
    ReadUntil EOFBytes ([88] ++ EOFBytes) [] = ([88, CR, LF], []) := by
  have h1 : readBytes (EOFBytes.getLastD 0) ([88] ++ EOFBytes) = some ([88, CR, LF], []) := by
    decide
  have e : ReadUntil EOFBytes ([88] ++ EOFBytes) [] = ([88, CR, LF], []) := by
    rw [ReadUntil_some h1, if_pos (by decide)]
    decide
  exact ⟨by rw [e]; decide, e⟩

/-- C1 (amended): for every nonempty or empty payload with no CR LF pair in it,
and with the chunking of the transport abstracted by the buffered
`ReadBytes` primitive, `ReadUntil` with delimiter CR LF consumes exactly the
frame `payload ++ CR LF` and returns the payload WITH the terminator appended
(the source never strips the delimiter from the accumulated bytes; its callers
rely on the JSON decoder tolerating the trailing CR LF as whitespace). -/
theorem C1_theorem (p : List Byte) (hp : hasCRLF p = false) :
    ReadUntil EOFBytes (p ++ EOFBytes) [] = (p ++ EOFBytes, []) :=
  ReadUntil_frame_aux p hp (p ++ EOFBytes).length (p ++ EOFBytes) [] le_rfl rfl
    (by simp [EOFBytes])

/-- C1, witness: the amended theorem evaluated on the concrete payload
`[104, 105]`. -/
theorem C1_witness :
    hasCRLF [104, 105] = false ∧
    ReadUntil EOFBytes ([104, 105] ++ EOFBytes) [] = ([104, 105] ++ EOFBytes, []) :=
  ⟨by decide, C1_theorem [104, 105] (by decide)⟩

/-- C6: on a stream whose next content is a zero-length frame (the two
terminator bytes immediately), `ReadUntil` does NOT stop at that terminator:
the `len(returnBytes) > len(delim)` test is strict, so the empty frame is
never recognised. With end-of-stream right after, the function returns the
two terminator bytes (not an empty payload) and cannot signal the
end-of-stream, because the loop shadows the named error return; with further
data after the empty frame, it reads straight past the terminator and merges
the empty frame with the following one. -/
theorem C6_theorem :
    (ReadUntil EOFBytes [CR, LF] []).1 = [CR, LF] ∧
    (ReadUntil EOFBytes [CR, LF] []).1 ≠ [] ∧
    ReadUntil EOFBytes ([CR, LF] ++ [65, CR, LF]) [] = ([CR, LF, 65, CR, LF], []) := by
  have h1 : readBytes (EOFBytes.getLastD 0) [CR, LF] = some ([CR, LF], []) := by decide
  have e1 : ReadUntil EOFBytes [CR, LF] [] = ([CR, LF], []) := by
    rw [ReadUntil_some h1, if_neg (by decide), ReadUntil_nil]
    decide
  have h2 : readBytes (EOFBytes.getLastD 0) ([CR, LF] ++ [65, CR, LF])
      = some ([CR, LF], [65, CR, LF]) := by decide
  have h3 : readBytes (EOFBytes.getLastD 0) [65, CR, LF] = some ([65, CR, LF], []) := by
    decide
  have e2 : ReadUntil EOFBytes ([CR, LF] ++ [65, CR, LF]) [] = ([CR, LF, 65, CR, LF], []) := by
    rw [ReadUntil_some h2, if_neg (by decide), ReadUntil_some h3, if_pos (by decide)]
    decide
  exact ⟨by rw [e1], by rw [e1]; decide, e2⟩

/-- C8, counterexample: the client frame writer `writeJSONTo` emits the
marshalled payload followed by TWO copies of the two-byte terminator, not
exactly one. -/
theorem C8_counterexample :
    writeJSONToStream [110] ≠ [110] ++ [CR, LF] ∧
    writeJSONToStream [110] = [110, CR, LF, CR, LF] := by
  constructor
  · decide
  · decide

/-- C8 (amended): the server frame writers (`writeOKResponse`,
`writeErrorResponse`) emit exactly the marshalled payload followed by one
two-byte CR LF terminator, but the client operation writer `writeJSONTo`
emits the payload followed by two CR LF terminators (its second
`conn.Write(common.EOFBytes)` adds a spurious empty frame). -/
theorem C8_theorem (b : List Byte) :
    writeOKResponseStream b = b ++ [CR, LF] ∧
    writeErrorResponseStream b = b ++ [CR, LF] ∧
    writeJSONToStream b = (b ++ [CR, LF]) ++ [CR, LF] :=
  ⟨rfl, rfl, rfl⟩

/-- The `common.Conversation` record; `uuid.UUID` tokens are modelled as `Nat`. -/
structure Conversation where
  id : Nat
  nickname : String
deriving Repr, DecidableEq

/-- The `common.Sender` record (also `common.ClientAboutMe`, which is the same
underlying type). -/
structure Sender where
  id : Nat
  name : String
deriving Repr, DecidableEq

/-- The `common.Message` record. The `Conversation` and `Sender` fields are Go
pointers; a well-formed published message carries both (a nil pointer would
panic the delivery goroutine when it reads `message.Conversation.ID`). -/
structure Message where
  conversation : Conversation
  sender : Sender
  text : String
deriving Repr, DecidableEq

/-- The server registry globals (src/server/server.go, lines 22-24):
`conversationIDs` (a map used as a set), `conversations` (the slice, in
insertion order), and `conversationsByNickname`. The Go maps are written only
at keys that were just checked absent, so association lists that are appended
under the same guard model them exactly. -/
structure Registry where
  conversationIDs : List Nat
  conversations : List Conversation
  conversationsByNickname : List (String × Conversation)
deriving Repr, DecidableEq

/-- The registry at process start: all three containers empty. -/
def Registry.empty : Registry := ⟨[], [], []⟩

/-- The lookup `conversationsByNickname[nickname]`. -/
def lookupByNickname (r : Registry) (n : String) : Option Conversation :=
  r.conversationsByNickname.lookup n

/-- The constant `server.unmarshalingError`. -/
def unmarshalingErrorMsg : String := "Error while unmarshaling data. Please check again"

/-- The nickname actually used by `handleCreateConversation`: the requested one,
or `strconv.Itoa(len(conversations))` when the request is empty. -/
def createNickname (r : Registry) (requested : String) : String :=
  if requested = "" then toString r.conversations.length else requested

/-- `server.handleCreateConversation` (src/server/server.go, lines 169-194).
The argument `payload` is the result of unmarshalling `op.Message` into a
`Conversation`; `freshID` is the token produced by `uuid.New()`, which
overwrites whatever id the payload carried. Returns the handler's error-or-unit
outcome extended with the created conversation, plus the updated registry. -/
def handleCreateConversation (r : Registry) (freshID : Nat)
    (payload : Except String Conversation) : Except String Conversation × Registry :=
  match payload with
  | .error _ => (.error unmarshalingErrorMsg, r)
  | .ok input =>
    let nickname := createNickname r input.nickname
    let conversation : Conversation := { id := freshID, nickname := nickname }
    match lookupByNickname r nickname with
    | some _ =>
      (.error ("conversation with nickname \x27" ++ nickname ++ "\x27 already exists"), r)
    | none =>
      (.ok conversation,
        { conversationIDs := r.conversationIDs ++ [freshID],
          conversations := r.conversations ++ [conversation],
          conversationsByNickname :=
            r.conversationsByNickname ++ [(nickname, conversation)] })

/-- Insertion into the `conversationsToListenOn` map used as a set:
`m[convID] = true` adds the key when absent and is a no-op when present. -/
def insertID (i : Nat) (subs : List Nat) : List Nat :=
  if i ∈ subs then subs else subs ++ [i]

/-- `server.handleSubscribe` (src/server/server.go, lines 209-229). `payload`
is the result of unmarshalling `op.Message` into a `Conversation`; only its
nickname is consulted. On success the conversation id is added to the
session's subscription set. -/
def handleSubscribe (r : Registry) (subs : List Nat)
    (payload : Except String Conversation) : Except String (List Nat) :=
  match payload with
  | .error _ => .error unmarshalingErrorMsg
  | .ok input =>
    match lookupByNickname r input.nickname with
    | none => .error ("conversation \x27" ++ input.nickname ++ "\x27 does not exist")
    | some conversation => .ok (insertID conversation.id subs)

/-- The opaque payload of a `Response`, named by what was marshalled into it
(all call sites marshal one of these shapes; the raw bytes themselves are the
serialization boundary and are not modelled). -/
inductive RawJSON
  | emptyObj
  | conversationList (cs : List Conversation)
  | messageBody (m : Message)
  | aboutMeBody (c : Sender)
deriving Repr, DecidableEq

/-- The `common.Response` envelope (part_004, lines 54-59), with
`Error` reduced to its only field `Message`. -/
structure Response where
  status : String
  operationType : String
  error : Option String
  message : Option RawJSON
deriving Repr, DecidableEq

/-- The `Response` built by `server.writeErrorResponse` (lines 275-291):
status `error`, the given message in the `Error` field, and the `NewResponse`
default payload; `OperationType` keeps its zero value. After writing it the
function closes the connection. -/
def writeErrorResponseR (s : String) : Response :=
  { status := "error", operationType := "", error := some s, message := some .emptyObj }

/-- The `Response` built by `server.writeOKResponse` (lines 293-320): status
`ok`, the operation type when nonempty (assigning the zero value when empty is
the identity, so the conditional is dropped), and the payload (every call site
passes a nonempty marshalled payload, so the `bytes.Equal(*message, []byte())`
guard is always passed). -/
def writeOKResponseR (message : RawJSON) (operationType : String) : Response :=
  { status := "ok", operationType := operationType, error := none,
    message := some message }

instance {ε α : Type} [DecidableEq ε] [DecidableEq α] : DecidableEq (Except ε α) :=
  fun a b =>
    match a, b with
    | .error e, .error f => decidable_of_iff (e = f) (by simp)
    | .error _, .ok _ => .isFalse (by simp)
    | .ok _, .error _ => .isFalse (by simp)
    | .ok x, .ok y => decidable_of_iff (x = y) (by simp)

/-- Decoded view of one frame read by the `Active` loop of
`server.handleConnection` (lines 88-128). `badFrame` is a frame whose bytes do
not unmarshal to an `Operation` (`getOperation` fails); otherwise the
constructor records `operation.Type` and the result of unmarshalling
`op.Message` into the record the dispatched handler expects (the opaque
deserialization boundary). `otherOp` carries any unhandled type string. -/
inductive OpView
  | badFrame
  | createOp (payload : Except String Conversation)
  | subscribeOp (payload : Except String Conversation)
  | messageOp (payload : Except String Message)
  | listOp
  | otherOp (type : String)
deriving Repr, DecidableEq

/-- Per-connection session state while the loop runs: the shared registry, the
session's `conversationsToListenOn` set, the process uuid source, and the
messages this session has pushed onto `messagesChannel`. -/
structure SessionState where
  registry : Registry
  subs : List Nat
  freshID : Nat
  published : List Message
deriving Repr, DecidableEq

/-- Result of one iteration of the `Active` loop: either an OK response was
written and the loop continues, or `writeErrorResponse` wrote an error
response, closed the connection, and the loop `break`s. -/
inductive LoopOutcome
  | continueLoop (response : Response) (st : SessionState)
  | closeWithError (response : Response) (st : SessionState)
deriving Repr, DecidableEq

/-- Whether the outcome keeps the session loop (and the connection) alive. -/
def LoopOutcome.isContinue : LoopOutcome → Bool
  | .continueLoop .. => true
  | .closeWithError .. => false

/-- One iteration of the `Active` loop of `server.handleConnection`
(src/server/server.go, lines 88-128) on a decoded frame. Transport write
failures (which would also break the loop) are outside the model; note that
EVERY handler error—including the domain errors from create and
subscribe—takes the `writeErrorResponse(conn, err.Error()); break` path,
which closes the connection. -/
def sessionStep (st : SessionState) (op : OpView) : LoopOutcome :=
  match op with
  | .badFrame => .closeWithError (writeErrorResponseR unmarshalingErrorMsg) st
  | .createOp payload =>
    match handleCreateConversation st.registry st.freshID payload with
    | (.error e, r2) =>
      .closeWithError (writeErrorResponseR e)
        { st with registry := r2, freshID := st.freshID + 1 }
    | (.ok _, r2) =>
      .continueLoop (writeOKResponseR .emptyObj "create")
        { st with registry := r2, freshID := st.freshID + 1 }
  | .subscribeOp payload =>
    match handleSubscribe st.registry st.subs payload with
    | .error e => .closeWithError (writeErrorResponseR e) st
    | .ok subs2 => .continueLoop (writeOKResponseR .emptyObj "subscribe") { st with subs := subs2 }
  | .messageOp payload =>
    match payload with
    | .error _ => .closeWithError (writeErrorResponseR unmarshalingErrorMsg) st
    | .ok m =>
      .continueLoop (writeOKResponseR .emptyObj "message")
        { st with published := st.published ++ [m] }
  | .listOp =>
    .continueLoop (writeOKResponseR (.conversationList st.registry.conversations) "list") st
  | .otherOp t => .continueLoop (writeOKResponseR .emptyObj t) st

/-- Coherence of the registry globals: the nickname map and the id set are
exactly the images of the conversations slice. It holds at process start and
is preserved by the only mutator, `handleCreateConversation`. -/
def Registry.Coherent (r : Registry) : Prop :=
  r.conversationsByNickname = r.conversations.map (fun c => (c.nickname, c)) ∧
  r.conversationIDs = r.conversations.map (fun c => c.id)

/-- Number of registered conversations carrying nickname `n`. -/
def countNick (r : Registry) (n : String) : Nat :=
  (r.conversations.filter (fun c => c.nickname = n)).length

theorem lookup_map_nickname_none {n : String} :
    ∀ {l : List Conversation},
      (List.lookup n (l.map fun c => (c.nickname, c)) = none ↔
        ∀ c ∈ l, c.nickname ≠ n) := by
  intro l
  induction l with
  | nil => simp [List.lookup]
  | cons c t ih =>
    simp only [List.map_cons]
    cases hbeq : n == c.nickname with
    | true =>
      have hcn : n = c.nickname := by simpa using hbeq
      constructor
      · intro h
        simp [List.lookup, hbeq] at h
      · intro h
        exact absurd hcn.symm (h c (by simp))
    | false =>
      have hcn : ¬ n = c.nickname := by simpa using hbeq
      have hred : List.lookup n ((c.nickname, c) :: t.map fun c => (c.nickname, c))
          = List.lookup n (t.map fun c => (c.nickname, c)) := by
        simp [List.lookup, hbeq]
      rw [hred, ih]
      constructor
      · intro h a ha
        rcases List.mem_cons.mp ha with rfl | ha2
        · exact fun hh => hcn hh.symm
        · exact h a ha2
      · intro h a ha
        exact h a (List.mem_cons_of_mem _ ha)

theorem lookup_append_of_none {n : String} {l2 : List (String × Conversation)} :
    ∀ {l1 : List (String × Conversation)}, List.lookup n l1 = none →
      List.lookup n (l1 ++ l2) = List.lookup n l2 := by
  intro l1
  induction l1 with
  | nil => intro h; simp
  | cons kv t ih =>
    intro h
    obtain ⟨k, v⟩ := kv
    cases hbeq : n == k with
    | true => simp [List.lookup, hbeq] at h
    | false =>
      have h2 : List.lookup n t = none := by simpa [List.lookup, hbeq] using h
      simpa [List.lookup, hbeq] using ih h2

/-- Evaluation of `handleCreateConversation` when the effective nickname is
free: the fresh conversation is appended to all three containers. -/
theorem create_eval_ok {r : Registry} (f pid : Nat) {n : String}
    (h : lookupByNickname r (createNickname r n) = none) :
    handleCreateConversation r f (.ok ⟨pid, n⟩) =
      (.ok ⟨f, createNickname r n⟩,
        { conversationIDs := r.conversationIDs ++ [f],
          conversations := r.conversations ++ [⟨f, createNickname r n⟩],
          conversationsByNickname := r.conversationsByNickname
            ++ [(createNickname r n, ⟨f, createNickname r n⟩)] }) := by
  simp [handleCreateConversation, h]

/-- Evaluation of `handleCreateConversation` when the effective nickname is
taken: the conflict is reported and the registry is left untouched. -/
theorem create_eval_dup {r : Registry} (f pid : Nat) {n : String} {c : Conversation}
    (h : lookupByNickname r (createNickname r n) = some c) :
    handleCreateConversation r f (.ok ⟨pid, n⟩) =
      (.error ("conversation with nickname \x27" ++ createNickname r n
        ++ "\x27 already exists"), r) := by
  simp [handleCreateConversation, h]

/-- A successful create with a nonempty requested nickname. -/
theorem create_ok {r : Registry} (f pid : Nat) {n : String} (hn : n ≠ "")
    (hnone : lookupByNickname r n = none) :
    handleCreateConversation r f (.ok ⟨pid, n⟩) =
      (.ok ⟨f, n⟩,
        { conversationIDs := r.conversationIDs ++ [f],
          conversations := r.conversations ++ [⟨f, n⟩],
          conversationsByNickname := r.conversationsByNickname ++ [(n, ⟨f, n⟩)] }) := by
  have hcn : createNickname r n = n := by simp [createNickname, hn]
  have h := create_eval_ok (r := r) (n := n) f pid (by rw [hcn]; exact hnone)
  rw [hcn] at h
  exact h

/-- A duplicate-nickname create with a nonempty requested nickname. -/
theorem create_dup {r : Registry} (f pid : Nat) {n : String} {c : Conversation}
    (hn : n ≠ "") (hsome : lookupByNickname r n = some c) :
    handleCreateConversation r f (.ok ⟨pid, n⟩) =
      (.error ("conversation with nickname \x27" ++ n ++ "\x27 already exists"), r) := by
  have hcn : createNickname r n = n := by simp [createNickname, hn]
  have h := create_eval_dup (r := r) (n := n) (c := c) f pid
    (by rw [hcn]; exact hsome)
  rw [hcn] at h
  exact h

/-- C4, counterexample: for the empty nickname the claim fails. Starting from
the empty registry (which contains no conversation nicknamed `""`), two
creates with requested nickname `""` BOTH succeed — the fallback assigns them
the distinct nicknames `"0"` and `"1"` — so there is no error response, and
afterwards the registry holds no conversation with nickname `""` rather than
exactly one. -/
theorem C4_counterexample :
    (handleCreateConversation Registry.empty 0 (.ok ⟨50, ""⟩)).1.isOk = true ∧
    (handleCreateConversation
        (handleCreateConversation Registry.empty 0 (.ok ⟨50, ""⟩)).2 1
        (.ok ⟨51, ""⟩)).1.isOk = true ∧
    countNick (handleCreateConversation
        (handleCreateConversation Registry.empty 0 (.ok ⟨50, ""⟩)).2 1
        (.ok ⟨51, ""⟩)).2 "" = 0 := by
  decide

/-- C4 (amended): for every NONEMPTY nickname `n` and coherent registry not
containing `n`, creating `n` twice yields one success and one error whose
message says the nickname already exists, the failing create leaves the
registry unchanged, the registry afterwards holds exactly one conversation
nicknamed `n`, and every create preserves nickname uniqueness (stated for an
arbitrary second coherent registry `rU` with distinct nicknames). For the
empty requested nickname the fallback applies instead (see the
counterexample). -/
theorem C4_theorem (r rU : Registry) (n nickU : String) (pid pid2 pidU f1 f2 fU : Nat)
    (hC : r.Coherent) (hn : n ≠ "") (hnone : lookupByNickname r n = none)
    (hCU : rU.Coherent)
    (hNDU : (rU.conversations.map (fun c => c.nickname)).Nodup) :
    (handleCreateConversation r f1 (.ok ⟨pid, n⟩)).1 = .ok ⟨f1, n⟩ ∧
    (handleCreateConversation (handleCreateConversation r f1 (.ok ⟨pid, n⟩)).2 f2
        (.ok ⟨pid2, n⟩)).1
      = .error ("conversation with nickname \x27" ++ n ++ "\x27 already exists") ∧
    (handleCreateConversation (handleCreateConversation r f1 (.ok ⟨pid, n⟩)).2 f2
        (.ok ⟨pid2, n⟩)).2
      = (handleCreateConversation r f1 (.ok ⟨pid, n⟩)).2 ∧
    countNick (handleCreateConversation (handleCreateConversation r f1 (.ok ⟨pid, n⟩)).2 f2
        (.ok ⟨pid2, n⟩)).2 n = 1 ∧
    ((handleCreateConversation rU fU (.ok ⟨pidU, nickU⟩)).2.conversations.map
        (fun c => c.nickname)).Nodup := by
  have h1 := create_ok (r := r) f1 pid hn hnone
  have hfree : ∀ c ∈ r.conversations, c.nickname ≠ n := by
    have := hC.1
    rw [lookupByNickname, this] at hnone
    exact lookup_map_nickname_none.mp hnone
  have hlook2 : lookupByNickname (handleCreateConversation r f1 (.ok ⟨pid, n⟩)).2 n
      = some ⟨f1, n⟩ := by
    rw [h1]
    show List.lookup n (r.conversationsByNickname ++ [(n, ⟨f1, n⟩)]) = some ⟨f1, n⟩
    rw [lookup_append_of_none hnone]
    simp [List.lookup]
  have h2 := create_dup (r := (handleCreateConversation r f1 (.ok ⟨pid, n⟩)).2)
    f2 pid2 hn hlook2
  refine ⟨by rw [h1], by rw [h2], by rw [h2], ?_, ?_⟩
  · rw [h2]
    show countNick (handleCreateConversation r f1 (.ok ⟨pid, n⟩)).2 n = 1
    rw [h1]
    simp only [countNick, List.filter_append]
    have hz : r.conversations.filter (fun c => c.nickname = n) = [] := by
      rw [List.filter_eq_nil_iff]
      intro a ha
      simp [hfree a ha]
    rw [hz]
    simp
  · cases hlU : lookupByNickname rU (createNickname rU nickU) with
    | none =>
      have he := create_eval_ok fU pidU hlU
      rw [he]
      show (List.map (fun c => c.nickname)
        (rU.conversations ++ [⟨fU, createNickname rU nickU⟩])).Nodup
      rw [List.map_append, List.nodup_append]
      refine ⟨hNDU, by simp, ?_⟩
      intro x hx hx2
      simp only [List.map_cons, List.map_nil, List.mem_singleton] at hx2
      subst hx2
      have hfreeU : ∀ c ∈ rU.conversations, c.nickname ≠ createNickname rU nickU := by
        have hcu := hCU.1
        rw [lookupByNickname, hcu] at hlU
        exact lookup_map_nickname_none.mp hlU
      obtain ⟨a, ha, haeq⟩ := List.mem_map.mp hx
      exact hfreeU a ha haeq
    | some c =>
      have he := create_eval_dup fU pidU hlU
      rw [he]
      exact hNDU

/-- C4, witness: the amended theorem applied to the empty registry and the
nickname `general` (with `other` exercising the uniqueness-preservation
conjunct on the same registry). -/
theorem C4_witness :
    (handleCreateConversation Registry.empty 0 (.ok ⟨7, "general"⟩)).1
      = .ok ⟨0, "general"⟩ ∧
    (handleCreateConversation
        (handleCreateConversation Registry.empty 0 (.ok ⟨7, "general"⟩)).2 1
        (.ok ⟨8, "general"⟩)).1
      = .error ("conversation with nickname \x27" ++ "general" ++ "\x27 already exists") ∧
    (handleCreateConversation
        (handleCreateConversation Registry.empty 0 (.ok ⟨7, "general"⟩)).2 1
        (.ok ⟨8, "general"⟩)).2
      = (handleCreateConversation Registry.empty 0 (.ok ⟨7, "general"⟩)).2 ∧
    countNick (handleCreateConversation
        (handleCreateConversation Registry.empty 0 (.ok ⟨7, "general"⟩)).2 1
        (.ok ⟨8, "general"⟩)).2 "general" = 1 ∧
    ((handleCreateConversation Registry.empty 2 (.ok ⟨9, "other"⟩)).2.conversations.map
        (fun c => c.nickname)).Nodup :=
  C4_theorem Registry.empty Registry.empty "general" "other" 7 8 9 0 1 2
    ⟨rfl, rfl⟩ (by decide) rfl ⟨rfl, rfl⟩ (by decide)

/-- C5: for every registry state and fresh id, a create whose requested
nickname is empty uses the fallback nickname `toString (number of registered
conversations)` — the created conversation carries it, or the duplicate error
names it — and in particular when the registry holds exactly 2 conversations
the assigned nickname is the string `2`. -/
theorem C5_theorem (r : Registry) (fresh pid : Nat) :
    (match (handleCreateConversation r fresh (.ok ⟨pid, ""⟩)).1 with
      | .ok c => c.nickname = toString r.conversations.length
      | .error e => e = "conversation with nickname \x27"
          ++ toString r.conversations.length ++ "\x27 already exists") ∧
    (r.conversations.length = 2 →
      (match (handleCreateConversation r fresh (.ok ⟨pid, ""⟩)).1 with
        | .ok c => c.nickname = "2"
        | .error e => e = "conversation with nickname \x272\x27 already exists")) := by
  have hnick : createNickname r "" = toString r.conversations.length := by
    simp [createNickname]
  constructor
  · cases hl : lookupByNickname r (createNickname r "") with
    | none =>
      rw [create_eval_ok fresh pid hl]
      simp [hnick]
    | some c =>
      rw [create_eval_dup fresh pid hl]
      simp [hnick]
  · intro h2
    have ht2 : toString (2 : Nat) = "2" := rfl
    cases hl : lookupByNickname r (createNickname r "") with
    | none =>
      rw [create_eval_ok fresh pid hl]
      simp only []
      rw [hnick, h2, ht2]
    | some c =>
      rw [create_eval_dup fresh pid hl]
      simp only []
      rw [hnick, h2, ht2]
      rfl

/-- A registry holding exactly two conversations, nicknamed `a` and `b`. -/
def twoConvRegistry : Registry :=
  { conversationIDs := [0, 1],
    conversations := [⟨0, "a"⟩, ⟨1, "b"⟩],
    conversationsByNickname := [("a", ⟨0, "a"⟩), ("b", ⟨1, "b"⟩)] }

/-- C5, witness: creating with an empty nickname on a registry of size 2
assigns the nickname `2`. -/
theorem C5_witness :
    twoConvRegistry.conversations.length = 2 ∧
    (match (handleCreateConversation twoConvRegistry 9 (.ok ⟨7, ""⟩)).1 with
      | .ok c => c.nickname = "2"
      | .error e => e = "conversation with nickname \x272\x27 already exists") :=
  ⟨rfl, (C5_theorem twoConvRegistry 9 7).2 rfl⟩

/-- A session in the `Active` state over the empty registry, with no
subscriptions and nothing published. -/
def ghostSession : SessionState :=
  { registry := Registry.empty, subs := [], freshID := 0, published := [] }

/-- C2, counterexample: in the `Active` state with a registry not containing
`ghost`, a subscribe operation naming `ghost` makes the session loop take the
`writeErrorResponse(conn, err.Error()); break` path: the error response (whose
message does contain `ghost`) is written, but then the connection is CLOSED
and the loop ends, so no subsequent operation on the connection can succeed —
contradicting the claim that the connection stays open and the loop
continues. -/
theorem C2_counterexample :
    sessionStep ghostSession (.subscribeOp (.ok ⟨0, "ghost"⟩)) =
      .closeWithError
        (writeErrorResponseR "conversation \x27ghost\x27 does not exist") ghostSession ∧
    (sessionStep ghostSession (.subscribeOp (.ok ⟨0, "ghost"⟩))).isContinue = false := by
  constructor
  · rfl
  · rfl

/-- C2 (amended): in the `Active` state, a subscribe operation whose nickname
is absent from the registry produces an error response of status `error`
whose message is `conversation (nickname) does not exist` — it does contain
the nickname — but the server then closes the connection and breaks the
session loop (every handler error takes the same path), so no subsequent
operation is processed on that connection. -/
theorem C2_theorem (st : SessionState) (pid : Nat) (nick : String)
    (hnone : lookupByNickname st.registry nick = none) :
    sessionStep st (.subscribeOp (.ok ⟨pid, nick⟩)) =
      .closeWithError
        (writeErrorResponseR ("conversation \x27" ++ nick ++ "\x27 does not exist")) st ∧
    (writeErrorResponseR ("conversation \x27" ++ nick ++ "\x27 does not exist")).status
      = "error" ∧
    (sessionStep st (.subscribeOp (.ok ⟨pid, nick⟩))).isContinue = false := by
  have hsub : handleSubscribe st.registry st.subs (.ok ⟨pid, nick⟩)
      = .error ("conversation \x27" ++ nick ++ "\x27 does not exist") := by
    simp [handleSubscribe, hnone]
  refine ⟨?_, rfl, ?_⟩
  · simp [sessionStep, hsub]
  · simp [sessionStep, hsub, LoopOutcome.isContinue]

/-- C2, witness: the amended theorem on the empty registry and nickname
`absent`. -/
theorem C2_witness :
    sessionStep ghostSession (.subscribeOp (.ok ⟨3, "absent"⟩)) =
      .closeWithError
        (writeErrorResponseR ("conversation \x27" ++ "absent" ++ "\x27 does not exist"))
        ghostSession ∧
    (writeErrorResponseR ("conversation \x27" ++ "absent" ++ "\x27 does not exist")).status
      = "error" ∧
    (sessionStep ghostSession (.subscribeOp (.ok ⟨3, "absent"⟩))).isContinue = false :=
  C2_theorem ghostSession 3 "absent" rfl

/-- Outcome of one bounded read in the client receiver: `readJSONFrom` under
the 2-second deadline either yields a decoded `Response`, or fails with
`os.ErrDeadlineExceeded` (the deadline expired), or fails with some other
read/decode error. -/
inductive ReadOutcome
  | gotResponse (r : Response)
  | deadlineExceeded
  | otherError
deriving Repr, DecidableEq

/-- What one iteration of the `client.handleIncoming` loop does. -/
inductive LoopAction
  | stop
  | retryRead
  | fatalExit
  | handled (r : Response)
deriving Repr, DecidableEq

/-- One iteration of `client.handleIncoming` (src/unnamed/part_000, lines
90-119): the `select` polls the `quit` channel (cancellation) with a
`default` branch, so when cancellation is signalled the goroutine returns;
otherwise it reads with a 2-second deadline. A read that fails with
`os.ErrDeadlineExceeded` hits `continue` — the loop retries the read; any
other read error reaches `common.CheckError`, which exits the process; a
decoded response is logged and passed to `handleResponse` and the loop goes
on. -/
def handleIncomingStep (quitSignaled : Bool) (read : ReadOutcome) : LoopAction :=
  if quitSignaled then .stop
  else
    match read with
    | .deadlineExceeded => .retryRead
    | .otherError => .fatalExit
    | .gotResponse r => .handled r

/-- C9: in the client receiver loop, a read that ends by deadline expiry while
cancellation has not been requested is treated as a non-error: the iteration
neither terminates the loop nor exits the process — the read is simply
retried. -/
theorem C9_theorem :
    handleIncomingStep false ReadOutcome.deadlineExceeded = LoopAction.retryRead ∧
    LoopAction.retryRead ≠ LoopAction.stop ∧
    LoopAction.retryRead ≠ LoopAction.fatalExit ∧
    handleIncomingStep true ReadOutcome.deadlineExceeded = LoopAction.stop := by
  refine ⟨rfl, ?_, ?_, rfl⟩
  · decide
  · decide

/-- A parsed handshake JSON object, field-presence explicit: Go
`encoding/json` leaves a struct field untouched when the object omits the
corresponding key. -/
structure AboutMePayload where
  id : Option Nat
  name : Option String
deriving Repr, DecidableEq

/-- `encoding/json` unmarshalling of a parsed object into a pre-initialised
`ClientAboutMe`: present fields overwrite, absent fields keep the pre-set
value. -/
def unmarshalAboutMeInto (init : Sender) (p : AboutMePayload) : Sender :=
  { id := p.id.getD init.id, name := p.name.getD init.name }

/-- `server.ParseClientAboutMe` (src/server/server.go, lines 249-261) on a
frame that parses successfully: the target is pre-initialised with
`ID: uuid.New()` (the caller-supplied fresh token) before unmarshalling, so a
handshake without an id keeps the fresh token and a supplied id overwrites
it. -/
def ParseClientAboutMe (freshID : Nat) (p : AboutMePayload) : Sender :=
  unmarshalAboutMeInto { id := freshID, name := "" } p

/-- C10: a successfully parsed handshake that omits the id field yields an
identity carrying the server-generated fresh token as its id, and a handshake
that supplies an id overrides the server-generated one. -/
theorem C10_theorem (fresh x : Nat) (p q : AboutMePayload)
    (hp : p.id = none) (hq : q.id = some x) :
    (ParseClientAboutMe fresh p).id = fresh ∧ (ParseClientAboutMe fresh q).id = x := by
  constructor
  · simp [ParseClientAboutMe, unmarshalAboutMeInto, hp]
  · simp [ParseClientAboutMe, unmarshalAboutMeInto, hq]

/-- C10, witness: a handshake with only a name keeps the fresh id 7; one
carrying id 3 overrides it. -/
theorem C10_witness :
    (ParseClientAboutMe 7 ⟨none, some "kaustubh"⟩).id = 7 ∧
    (ParseClientAboutMe 7 ⟨some 3, some "kaustubh"⟩).id = 3 :=
  C10_theorem 7 3 ⟨none, some "kaustubh"⟩ ⟨some 3, some "kaustubh"⟩ rfl rfl

/-- Pointwise update of a function-indexed family (one goroutine's state). -/
def updAt {α : Type} (f : Nat → α) (i : Nat) (v : α) : Nat → α :=
  fun j => if j = i then v else f j

/-- Global state of the broadcast path: one `subscribeToMessages` goroutine
per connection (indices below `numListeners`), each with its
`conversationsToListenOn` set (`subsOf`) and the log of message frames it has
written to its connection (`deliveredOf`); `pending` holds the messages sent
on the single shared `messagesChannel` and not yet received. -/
structure RouterState where
  numListeners : Nat
  subsOf : Nat → List Nat
  deliveredOf : Nat → List Message
  pending : List Message

/-- The broadcast path's step relation (src/server/server.go):
* `publish` — `handleMessage` (line 243) sends the message on the shared
  `messagesChannel`;
* `deliver` — ONE goroutine's `select` receives the channel's head message (a
  Go channel hands each value to a single receiver, chosen
  nondeterministically among the blocked `subscribeToMessages` loops); if
  that session's `conversationsToListenOn` contains the message's
  conversation id the message is written to that one connection, otherwise
  it is dropped (lines 133-153);
* `subscribeStep` — `handleSubscribe` adds a conversation id to one session's
  subscription set (line 226). -/
inductive RouterStep : RouterState → RouterState → Prop
  | publish (s : RouterState) (m : Message) :
      RouterStep s { s with pending := s.pending ++ [m] }
  | deliver (s : RouterState) (i : Nat) (m : Message) (rest : List Message)
      (hp : s.pending = m :: rest) (hi : i < s.numListeners) :
      RouterStep s { s with
        pending := rest,
        deliveredOf := updAt s.deliveredOf i
          (if m.conversation.id ∈ s.subsOf i then s.deliveredOf i ++ [m]
           else s.deliveredOf i) }
  | subscribeStep (s : RouterState) (i : Nat) (cid : Nat) (hi : i < s.numListeners) :
      RouterStep s { s with subsOf := updAt s.subsOf i (insertID cid (s.subsOf i)) }

/-- C7: along any step of the broadcast path, a message newly written to a
session's connection was in that session's subscription set at the moment of
delivery: delivery happens only under the
`conversationsToListenOn[message.Conversation.ID]` guard. -/
theorem C7_theorem (s s' : RouterState) (h : RouterStep s s') (i : Nat) (m : Message)
    (hm : m ∈ s'.deliveredOf i) :
    m ∈ s.deliveredOf i ∨ m.conversation.id ∈ s.subsOf i := by
  cases h with
  | publish m2 => exact Or.inl hm
  | subscribeStep j cid hj => exact Or.inl hm
  | deliver j m0 rest hp hj =>
    have hm2 : m ∈ updAt s.deliveredOf j
        (if m0.conversation.id ∈ s.subsOf j then s.deliveredOf j ++ [m0]
         else s.deliveredOf j) i := hm
    rw [updAt] at hm2
    by_cases hij : i = j
    · rw [if_pos hij] at hm2
      subst hij
      by_cases hsub : m0.conversation.id ∈ s.subsOf i
      · rw [if_pos hsub] at hm2
        rcases List.mem_append.mp hm2 with h1 | h1
        · exact Or.inl h1
        · rcases List.mem_singleton.mp h1 with rfl
          exact Or.inr hsub
      · rw [if_neg hsub] at hm2
        exact Or.inl hm2
    · rw [if_neg hij] at hm2
      exact Or.inl hm2

/-- A concrete message published on the conversation with id 5. -/
def mGeneral : Message :=
  { conversation := ⟨5, "general"⟩, sender := ⟨1, "bee"⟩, text := "hello" }

/-- One listener subscribed to conversation 5, with the message pending. -/
def routerW0 : RouterState :=
  { numListeners := 1, subsOf := fun _ => [5], deliveredOf := fun _ => [],
    pending := [mGeneral] }

/-- The state after that listener receives and writes the message. -/
def routerW1 : RouterState :=
  { routerW0 with
    pending := [],
    deliveredOf := updAt routerW0.deliveredOf 0
      (if mGeneral.conversation.id ∈ routerW0.subsOf 0 then routerW0.deliveredOf 0 ++ [mGeneral]
       else routerW0.deliveredOf 0) }

/-- C7, witness: the delivery-guard theorem applied to a concrete deliver
step. -/
theorem C7_witness :
    mGeneral ∈ routerW0.deliveredOf 0 ∨ mGeneral.conversation.id ∈ routerW0.subsOf 0 :=
  C7_theorem routerW0 routerW1
    (RouterStep.deliver routerW0 0 mGeneral [] rfl (by decide)) 0 mGeneral
    (by simp [routerW1, routerW0, updAt, mGeneral])

/-- Two listeners, both subscribed to conversation 5, nothing pending. -/
def broadcastS0 : RouterState :=
  { numListeners := 2, subsOf := fun _ => [5], deliveredOf := fun _ => [],
    pending := [] }

/-- After `handleMessage` publishes `mGeneral` on the shared channel. -/
def broadcastS1 : RouterState :=
  { broadcastS0 with pending := broadcastS0.pending ++ [mGeneral] }

/-- After listener 0 receives the message from the shared channel. -/
def broadcastS2 : RouterState :=
  { broadcastS1 with
    pending := [],
    deliveredOf := updAt broadcastS1.deliveredOf 0
      (if mGeneral.conversation.id ∈ broadcastS1.subsOf 0 then
        broadcastS1.deliveredOf 0 ++ [mGeneral]
       else broadcastS1.deliveredOf 0) }

/-- C3, counterexample: both sessions are subscribed to the message's
conversation, the message is published once and fully consumed from the
shared channel, yet only session 0 received it — session 1, although
subscribed throughout, got nothing, and nothing remains that could still be
delivered. The single shared channel drained by every session's goroutine is
work-stealing, not fan-out: N subscribers do not produce N deliveries. -/
theorem C3_counterexample :
    RouterStep broadcastS0 broadcastS1 ∧
    RouterStep broadcastS1 broadcastS2 ∧
    mGeneral.conversation.id ∈ broadcastS2.subsOf 1 ∧
    broadcastS2.deliveredOf 0 = [mGeneral] ∧
    broadcastS2.deliveredOf 1 = [] ∧
    broadcastS2.pending = [] := by
  refine ⟨RouterStep.publish broadcastS0 mGeneral,
    RouterStep.deliver broadcastS1 0 mGeneral [] rfl (by decide), ?_, ?_, ?_, rfl⟩
  · simp [broadcastS2, broadcastS1, broadcastS0, mGeneral]
  · simp [broadcastS2, broadcastS1, broadcastS0, updAt, mGeneral]
  · simp [broadcastS2, broadcastS1, broadcastS0, updAt, mGeneral]

/-- C3 (amended): each receive from the shared `messagesChannel` routes the
pending head message to exactly ONE session's goroutine — that session's log
grows by the message only if it is subscribed (so unsubscribed sessions never
receive it), and every other session's log is unchanged. Hence one publish
produces at most one delivery, regardless of how many sessions are
subscribed; the fan-out the claim asks for does not happen. -/
theorem C3_theorem (s s' : RouterState) (h : RouterStep s s') (j k : Nat)
    (hjk : j ≠ k) (hj : s'.deliveredOf j ≠ s.deliveredOf j) :
    s'.deliveredOf k = s.deliveredOf k ∧
    ∃ m rest, s.pending = m :: rest ∧ s'.pending = rest ∧
      s'.deliveredOf j = s.deliveredOf j ++ [m] ∧
      m.conversation.id ∈ s.subsOf j := by
  cases h with
  | publish m2 => exact absurd rfl hj
  | subscribeStep i cid hi => exact absurd rfl hj
  | deliver i m rest hp hi =>
    by_cases hij : j = i
    · subst hij
      by_cases hsub : m.conversation.id ∈ s.subsOf j
      · constructor
        · have hkj : ¬ k = j := fun hh => hjk hh.symm
          show updAt s.deliveredOf j
            (if m.conversation.id ∈ s.subsOf j then s.deliveredOf j ++ [m]
             else s.deliveredOf j) k = s.deliveredOf k
          simp [updAt, hkj]
        · exact ⟨m, rest, hp, rfl, by simp [updAt, hsub], hsub⟩
      · exfalso
        apply hj
        show updAt s.deliveredOf j
            (if m.conversation.id ∈ s.subsOf j then s.deliveredOf j ++ [m]
             else s.deliveredOf j) j = s.deliveredOf j
        simp [updAt, hsub]
    · exfalso
      apply hj
      show updAt s.deliveredOf i
          (if m.conversation.id ∈ s.subsOf i then s.deliveredOf i ++ [m]
           else s.deliveredOf i) j = s.deliveredOf j
      simp [updAt, hij]

/-- C3, witness: the amended theorem applied to the concrete work-stealing
run — listener 0 stole the message, listener 1 saw nothing. -/
theorem C3_witness :
    broadcastS2.deliveredOf 1 = broadcastS1.deliveredOf 1 ∧
    ∃ m rest, broadcastS1.pending = m :: rest ∧ broadcastS2.pending = rest ∧
      broadcastS2.deliveredOf 0 = broadcastS1.deliveredOf 0 ++ [m] ∧
      m.conversation.id ∈ broadcastS1.subsOf 0 :=
  C3_theorem broadcastS1 broadcastS2
    (RouterStep.deliver broadcastS1 0 mGeneral [] rfl (by decide)) 0 1
    (by decide) (by simp [broadcastS2, broadcastS1, broadcastS0, updAt, mGeneral])

end TcpChat
